import Mathlib

/-!
# Verification of the `MiniGames3.py` simulation core

A shallow embedding of the gameplay-relevant parts of the single-file
arcade shooter `src/MiniGames3.py`, together with theorems settling the
frozen claims about it.

Modelling conventions:
* Python floats are modelled as exact rationals (`ℚ`); Python ints that
  never go negative (score, coins, bombs, wave, levels, upgrade levels)
  as `ℕ`.
* Randomness (`random.choice`, `random.random`, ...) is modelled by
  passing the drawn values in as explicit parameters or oracle streams.
* Wall-clock times (`time.time()`) are passed in as rational parameters.
* The normalized movement vector computed from the pressed keys in
  `input_play` (which involves `math.hypot`) is taken as an input pair
  `(mx, my) : ℚ × ℚ`; theorems quantify over all such pairs, a superset
  of the values the normalization can produce.
-/

namespace MiniGames

/-- Screen width, `WIDTH = 1000`. -/
def WIDTH : ℚ := 1000

/-- Screen height, `HEIGHT = 650`. -/
def HEIGHT : ℚ := 650

/-- Source `PLAYER_MAX_HP = 120`. -/
def PLAYER_MAX_HP : ℚ := 120

/-- Source `PLAYER_BASE_SPEED = 300`. -/
def PLAYER_BASE_SPEED : ℚ := 300

/-- Source `PLAYER_DASH_SPEED = 700`. -/
def PLAYER_DASH_SPEED : ℚ := 700

/-- Source `PLAYER_DASH_COOLDOWN = 1.0`. -/
def PLAYER_DASH_COOLDOWN : ℚ := 1

/-- Source `BULLET_SPEED = 700`. -/
def BULLET_SPEED : ℚ := 700

/-- Source `LASER_DURATION = 0.25`. -/
def LASER_DURATION : ℚ := 1/4

/-- Source `def clamp(v, lo, hi): return max(lo, min(hi, v))`. -/
def clamp (v lo hi : ℚ) : ℚ := max lo (min hi v)

/-- Integer version of `clamp`, for the bomb count (`self.player.bombs`
is a Python int and is only ever clamped between int bounds). -/
def clampNat (v lo hi : ℕ) : ℕ := max lo (min hi v)

/-- Owner tag of a `Bullet` (`owner='player'` / `owner='enemy'`). -/
inductive Owner where
  | player
  | enemy
deriving DecidableEq, Repr

/-- The `Bullet` class: position, velocity, owner, damage, radius. -/
structure Bullet where
  x : ℚ
  y : ℚ
  vx : ℚ
  vy : ℚ
  owner : Owner
  dmg : ℚ
  r : ℚ
deriving DecidableEq, Repr

/-- Source `Bullet.update`: `self.x += self.vx*dt; self.y += self.vy*dt`. -/
def Bullet.update (dt : ℚ) (b : Bullet) : Bullet :=
  { b with x := b.x + b.vx * dt, y := b.y + b.vy * dt }

/-- Source `Bullet.alive`: `-50 < x < WIDTH+50 and -50 < y < HEIGHT+50`. -/
def Bullet.aliveB (b : Bullet) : Bool :=
  decide (-50 < b.x ∧ b.x < WIDTH + 50 ∧ -50 < b.y ∧ b.y < HEIGHT + 50)

/-- The `LaserBeam` class: origin, direction, lifetime, age, damage. -/
structure LaserBeam where
  x : ℚ
  y : ℚ
  dx : ℚ
  dy : ℚ
  life : ℚ
  t : ℚ
  dmg : ℚ
deriving DecidableEq, Repr

/-- Source `LaserBeam.update`: `self.t += dt`. -/
def LaserBeam.update (dt : ℚ) (l : LaserBeam) : LaserBeam :=
  { l with t := l.t + dt }

/-- Source `LaserBeam.alive`: `self.t < self.life`. -/
def LaserBeam.aliveB (l : LaserBeam) : Bool := decide (l.t < l.life)

/-- The kinds of power-up (`kinds = ['heal','rapid','shield','bomb','coin']`). -/
inductive PKind where
  | heal
  | rapid
  | shield
  | bomb
  | coin
deriving DecidableEq, Repr

/-- A power-up entry, the dict `{'x':x,'y':y,'type':k,'t':0}`. -/
structure PowerUp where
  x : ℚ
  y : ℚ
  type : PKind
  t : ℚ
deriving DecidableEq, Repr

/-- The `Player` class state (rendering-only fields omitted).  The
`upgrades` dict `{"hp":0,"speed":0,"damage":0}` is flattened into three
fields. -/
structure Player where
  x : ℚ
  y : ℚ
  r : ℚ
  hp : ℚ
  maxhp : ℚ
  speed : ℚ
  dash_cd : ℚ
  coins : ℕ
  score : ℕ
  weapon_index : ℕ
  bullets_cool : ℚ
  rapid : ℚ
  shield : ℚ
  bombs : ℕ
  upg_hp : ℕ
  upg_speed : ℕ
  upg_damage : ℕ
deriving DecidableEq, Repr

/-- Source `Player.__init__(x, y)`: the freshly constructed player. -/
def Player.init (x y : ℚ) : Player :=
  { x := x, y := y, r := 16
    hp := PLAYER_MAX_HP, maxhp := PLAYER_MAX_HP
    speed := PLAYER_BASE_SPEED
    dash_cd := 0
    coins := 0, score := 0
    weapon_index := 0
    bullets_cool := 0
    rapid := 0
    shield := 0
    bombs := 2
    upg_hp := 0, upg_speed := 0, upg_damage := 0 }

/-- Source `Player.update(dt)`: cooldowns decrease linearly, floored at 0. -/
def Player.update (dt : ℚ) (p : Player) : Player :=
  { p with
    dash_cd := max 0 (p.dash_cd - dt)
    bullets_cool := max 0 (p.bullets_cool - dt)
    rapid := max 0 (p.rapid - dt)
    shield := max 0 (p.shield - dt) }

/-- Enemy kinds (`'chaser'`, `'zig'`, `'shooter'`, `'boss'`). -/
inductive EKind where
  | chaser
  | zig
  | shooter
  | boss
deriving DecidableEq, Repr

/-- The `Enemy` class state (the cosmetic `color` field is omitted). -/
structure Enemy where
  x : ℚ
  y : ℚ
  kind : EKind
  level : ℕ
  hp : ℚ
  r : ℚ
  speed : ℚ
  t : ℚ
  cool : ℚ
deriving DecidableEq, Repr

/-- Source `Enemy.__init__(x, y, kind, level)`.  The initial fire cooldown
`random.uniform(0.6, 1.8)` is passed in as `cool`. -/
def Enemy.init (x y : ℚ) (kind : EKind) (level : ℕ) (cool : ℚ) : Enemy :=
  let basehp : ℚ := 20 + level * 6
  { x := x, y := y, kind := kind, level := level
    hp := if kind = .boss then basehp * 6 else basehp
    r := if kind = .boss then 36 else 12
    speed := if kind = .boss then 45 else 90 + level * 8
    t := 0
    cool := cool }

/-! ## The dead-enemy removal / reward pass

`Game.update_physics`, enemy section: each enemy is updated in place, and
enemies with `hp <= 0` are removed, granting `10 + level*3` score and
`1 + level//2` coins, and dropping a power-up with probability `0.18`.
The in-loop call `e.update(dt, player, bullets)` (movement and firing)
changes only position, timers and the bullet list, never `hp` or `level`;
the pass below models the removal/reward logic on the post-update enemy
list.  Each enemy is paired with the random draws the iteration would
consume for it (the `random.random()` drop roll and the kind that
`drop_powerup` would choose). -/

/-- Score reward for a dead enemy: `10 + e.level*3`. -/
def rewardScore (e : Enemy) : ℕ := 10 + e.level * 3

/-- Coin reward for a dead enemy: `1 + e.level//2`. -/
def rewardCoins (e : Enemy) : ℕ := 1 + e.level / 2

/-- Source `Game.drop_powerup(x, y)` with the randomly chosen kind passed in:
appends `{'x':x,'y':y,'type':k,'t':0}`. -/
def drop_powerup (x y : ℚ) (k : PKind) : PowerUp := ⟨x, y, k, 0⟩

/-- Output of the dead-enemy pass. -/
structure DeadOut where
  survivors : List Enemy
  score : ℕ
  coins : ℕ
  drops : List PowerUp
deriving DecidableEq, Repr

/-- The dead-enemy removal/reward pass of `Game.update_physics`
(lines 421-428).  Input pairs each enemy with its drop roll and the
power-up kind drawn for it. -/
def deadRewardPass : List (Enemy × ℚ × PKind) → DeadOut
  | [] => ⟨[], 0, 0, []⟩
  | (e, roll, k) :: rest =>
    let out := deadRewardPass rest
    if e.hp ≤ 0 then
      { survivors := out.survivors
        score := rewardScore e + out.score
        coins := rewardCoins e + out.coins
        drops := (if roll < 18/100 then [drop_powerup e.x e.y k] else []) ++ out.drops }
    else
      { out with survivors := e :: out.survivors }

/-! ## Bullet collision pass (`update_physics` lines 430-445) -/

/-- Source `(e.x - b.x)**2 + (e.y - b.y)**2 <= (e.r + b.r)**2`. -/
def bulletHitsEnemy (b : Bullet) (e : Enemy) : Bool :=
  decide ((e.x - b.x)^2 + (e.y - b.y)^2 ≤ (e.r + b.r)^2)

/-- Source `(player.x - b.x)**2 + (player.y - b.y)**2 <= (player.r + b.r)**2`. -/
def bulletHitsPlayer (b : Bullet) (p : Player) : Bool :=
  decide ((p.x - b.x)^2 + (p.y - b.y)^2 ≤ (p.r + b.r)^2)

/-- Inner loop for a player-owned bullet: the first enemy hit absorbs the
bullet (`e.hp -= b.dmg`, then `break`).  Returns the updated enemy list
and whether the bullet was consumed. -/
def damageFirstHit (b : Bullet) : List Enemy → List Enemy × Bool
  | [] => ([], false)
  | e :: es =>
    if bulletHitsEnemy b e then ({ e with hp := e.hp - b.dmg } :: es, true)
    else
      let out := damageFirstHit b es
      (e :: out.1, out.2)

/-- Output of the bullet collision pass. -/
structure BulletPassOut where
  player : Player
  bullets : List Bullet
  enemies : List Enemy
deriving DecidableEq, Repr

/-- The bullet collision pass of `Game.update_physics` (lines 430-445):
player bullets damage the first enemy they overlap and are consumed;
enemy bullets hitting the player are consumed and, if the shield is
inactive, reduce the player's hp by the bullet damage. -/
def bulletPass (p : Player) (es : List Enemy) : List Bullet → BulletPassOut
  | [] => ⟨p, [], es⟩
  | b :: bs =>
    match b.owner with
    | .player =>
      let hit := damageFirstHit b es
      let rest := bulletPass p hit.1 bs
      if hit.2 then rest else { rest with bullets := b :: rest.bullets }
    | .enemy =>
      if bulletHitsPlayer b p then
        let p2 := if p.shield ≤ 0 then { p with hp := p.hp - b.dmg } else p
        bulletPass p2 es bs
      else
        let rest := bulletPass p es bs
        { rest with bullets := b :: rest.bullets }

/-! ## Laser damage pass (`update_physics` lines 446-458)

The source computes, for each live laser and each enemy, the distance
from the enemy center to the infinite line through
`(l.x, l.y)` and `(l.x + l.dx*2000, l.y + l.dy*2000)` as
`num / (hypot(y2-y1, x2-x1) + 1e-6)` and applies `l.dmg*dt*8` damage
whenever that distance is `<= e.r + 4`.  The square root is modelled
exactly over `ℝ` (`lineDistR`); the executable test `laserHitB` is the
equivalent square-free rational comparison, and `laserHitB_correct`
below proves the two agree. -/

/-- The numerator `abs((y2-y1)*px - (x2-x1)*py + x2*y1 - y2*x1)`. -/
def lineNum (l : LaserBeam) (px py : ℚ) : ℚ :=
  let x1 := l.x
  let y1 := l.y
  let x2 := l.x + l.dx * 2000
  let y2 := l.y + l.dy * 2000
  |(y2 - y1) * px - (x2 - x1) * py + x2 * y1 - y2 * x1|

/-- The squared argument of `math.hypot(y2-y1, x2-x1)`. -/
def lineLenSq (l : LaserBeam) : ℚ :=
  (l.y + l.dy * 2000 - l.y)^2 + (l.x + l.dx * 2000 - l.x)^2

/-- The source's `dist = num/den` with `den = hypot(...) + 1e-6`,
modelled with an exact real square root. -/
noncomputable def lineDistR (l : LaserBeam) (px py : ℚ) : ℝ :=
  (lineNum l px py : ℝ) / (Real.sqrt (lineLenSq l) + ((1/1000000 : ℚ) : ℝ))

/-- Executable form of the source's test `dist <= e.r + 4`. -/
def laserHitB (l : LaserBeam) (px py er : ℚ) : Bool :=
  let num := lineNum l px py
  let c := er + 4
  decide (0 ≤ c ∧ (num ≤ c * (1/1000000) ∨
    (num - c * (1/1000000))^2 ≤ c^2 * lineLenSq l))

/-- One laser applied to one enemy: `if dist <= e.r + 4: e.hp -= l.dmg*dt*8`. -/
def laserHitOne (dt : ℚ) (l : LaserBeam) (e : Enemy) : Enemy :=
  if laserHitB l e.x e.y e.r then { e with hp := e.hp - l.dmg * dt * 8 } else e

/-- The nested laser loop: `for l in lasers: for e in enemies: ...`. -/
def laserDamagePass (dt : ℚ) (ls : List LaserBeam) (es : List Enemy) : List Enemy :=
  ls.foldl (fun acc l => acc.map (laserHitOne dt l)) es

/-- Modelled from the spec: the squared distance from the point
`(px, py)` to the infinite RAY from `(ox, oy)` along the unit direction
`(dx, dy)` ("the infinite ray (from origin along its fixed direction)").
For a point whose projection falls behind the origin this is the squared
distance to the origin itself. -/
def raySqDist (ox oy dx dy px py : ℚ) : ℚ :=
  let wx := px - ox
  let wy := py - oy
  let s := wx * dx + wy * dy
  if s ≤ 0 then wx^2 + wy^2 else wx^2 + wy^2 - s^2

/-! ## Enemy-player contact pass (`update_physics` lines 459-467) -/

/-- Source `(e.x - player.x)**2 + (e.y - player.y)**2 <= (e.r + player.r)**2`. -/
def enemyTouchesPlayer (e : Enemy) (p : Player) : Bool :=
  decide ((e.x - p.x)^2 + (e.y - p.y)^2 ≤ (e.r + p.r)^2)

/-- The contact pass: every enemy overlapping the player is removed; if
the shield is inactive the player takes a flat 18 damage per contact.
No score, coins or power-up drop is produced here (the source block
touches neither `score`, `coins` nor `self.powerups`). -/
def contactPass (p : Player) : List Enemy → Player × List Enemy
  | [] => (p, [])
  | e :: es =>
    if enemyTouchesPlayer e p then
      let p2 := if p.shield ≤ 0 then { p with hp := p.hp - 18 } else p
      contactPass p2 es
    else
      let out := contactPass p es
      (out.1, e :: out.2)

/-! ## Power-up pass (`Game.update_powerups`) -/

/-- Effect of picking up a power-up of kind `k`. -/
def pickupEffect (k : PKind) (pl : Player) : Player :=
  match k with
  | .heal => { pl with hp := clamp (pl.hp + 40) 0 pl.maxhp }
  | .rapid => { pl with rapid := 6 }
  | .shield => { pl with shield := 6 }
  | .bomb => { pl with bombs := clampNat (pl.bombs + 1) 0 6 }
  | .coin => { pl with coins := pl.coins + 5 }

/-- One iteration of the `update_powerups` loop: the power-up falls
(`p['y'] += 40*dt`), ages, and is then either picked up (circle overlap
with pickup radius bonus 12), discarded below `HEIGHT+40`, or kept. -/
def powerupStepOne (dt : ℚ) (pl : Player) (p : PowerUp) : Player × Option PowerUp :=
  let p2 : PowerUp := { p with y := p.y + 40 * dt, t := p.t + dt }
  if (p2.x - pl.x)^2 + (p2.y - pl.y)^2 ≤ (pl.r + 12)^2 then
    (pickupEffect p2.type pl, none)
  else if HEIGHT + 40 < p2.y then (pl, none)
  else (pl, some p2)

/-- Source `Game.update_powerups(dt)`: the loop over the live power-up list. -/
def update_powerups (dt : ℚ) (pl : Player) : List PowerUp → Player × List PowerUp
  | [] => (pl, [])
  | p :: ps =>
    let one := powerupStepOne dt pl p
    let rest := update_powerups dt one.1 ps
    (rest.1, one.2.toList ++ rest.2)

/-! ## Bomb (`Game.bomb_explode` and its gating in `Game.input_play`) -/

/-- Source `(e.x - player.x)**2 + (e.y - player.y)**2 <= rad*rad` with `rad = 180`. -/
def inBlast (pl : Player) (e : Enemy) : Bool :=
  decide ((e.x - pl.x)^2 + (e.y - pl.y)^2 ≤ 180 * 180)

/-- The loop of `Game.bomb_explode`: removes every enemy in blast range,
adding 15 score per kill and counting kills. -/
def bombKillLoop (pl : Player) : List Enemy → Player × List Enemy × ℕ
  | [] => (pl, [], 0)
  | e :: es =>
    if inBlast pl e then
      let out := bombKillLoop { pl with score := pl.score + 15 } es
      (out.1, out.2.1, out.2.2 + 1)
    else
      let out := bombKillLoop pl es
      (out.1, e :: out.2.1, out.2.2)

/-- Source `Game.bomb_explode`: after the kill loop, `if killed>0:
player.coins += killed*2`. -/
def bomb_explode (pl : Player) (es : List Enemy) : Player × List Enemy :=
  let out := bombKillLoop pl es
  (if 0 < out.2.2 then { out.1 with coins := out.1.coins + out.2.2 * 2 } else out.1,
   out.2.1)

/-- The bomb gating in `Game.input_play` (lines 352-356): a bomb fires
only if the key is held, `player.bombs > 0`, and more than 0.5 seconds
of wall-clock time have passed since the last use; then one charge is
consumed, `last_bomb` is set to the current time and `bomb_explode`
runs.  `now` stands for the `time.time()` reading. -/
def bombAction (bombKey : Bool) (now lastBomb : ℚ) (pl : Player) (es : List Enemy) :
    Player × List Enemy × ℚ :=
  if bombKey = true ∧ 0 < pl.bombs ∧ 1/2 < now - lastBomb then
    let pl2 : Player := { pl with bombs := pl.bombs - 1 }
    let out := bomb_explode pl2 es
    (out.1, out.2, now)
  else (pl, es, lastBomb)

/-! ## Shop (`Game.shop_loop`, purchase branch, lines 703-715) -/

/-- The `key` strings of the shop options. -/
inductive ShopKey where
  | hp
  | speed
  | damage
  | bomb
  | heal
deriving DecidableEq, Repr

/-- The fixed shop menu `opts` (label strings omitted): key and cost. -/
def shopOpts : List (ShopKey × ℕ) :=
  [(.hp, 8), (.speed, 10), (.damage, 12), (.bomb, 6), (.heal, 5)]

/-- The persisted upgrade levels, `self.persist_upgrades`
(`{"hp": _, "speed": _, "damage": _}`). -/
structure Persist where
  hp : ℕ
  speed : ℕ
  damage : ℕ
deriving DecidableEq, Repr

/-- Applying a purchased option (after the cost has been deducted). -/
def applyShopKey (key : ShopKey) (pu : Persist) (pl : Player) : Persist × Player :=
  match key with
  | .hp =>
    let pl2 : Player := { pl with upg_hp := pl.upg_hp + 1, maxhp := pl.maxhp + 20 }
    ({ pu with hp := pu.hp + 1 }, { pl2 with hp := pl2.maxhp })
  | .speed => ({ pu with speed := pu.speed + 1 }, { pl with upg_speed := pl.upg_speed + 1 })
  | .damage => ({ pu with damage := pu.damage + 1 }, { pl with upg_damage := pl.upg_damage + 1 })
  | .bomb => (pu, { pl with bombs := pl.bombs + 1 })
  | .heal => (pu, { pl with hp := min pl.maxhp (pl.hp + 40) })

/-- The selected entry `opts[sel]`. -/
def shopOpt (sel : Fin 5) : ShopKey × ℕ := shopOpts.get ⟨sel, by simp [shopOpts]⟩

/-- One purchase attempt in `Game.shop_loop`: on Enter with selection
`sel`, if `player.coins >= cost` the cost is deducted and the option
applied, otherwise nothing happens. -/
def shopBuy (sel : Fin 5) (pu : Persist) (pl : Player) : Persist × Player :=
  if (shopOpt sel).2 ≤ pl.coins then
    applyShopKey (shopOpt sel).1 pu { pl with coins := pl.coins - (shopOpt sel).2 }
  else (pu, pl)

/-! ## Wave scheduler (`Game.spawn_wave`, `Game.update_wave_and_spawning`,
`Game.reset_run`) -/

/-- The wave phase, `self.wave_state`. -/
inductive WaveState where
  | interlude
  | active
deriving DecidableEq, Repr

/-- A screen side for `spawn_enemy_edge`. -/
inductive Side where
  | top
  | bottom
  | left
  | right
deriving DecidableEq, Repr

/-- The non-boss kinds `random.choices(['chaser','shooter','zig'], ...)`
can produce. -/
inductive BaseKind where
  | chaser
  | shooter
  | zig
deriving DecidableEq, Repr

/-- Injection of the weighted-random kinds into `EKind`. -/
def BaseKind.toEKind : BaseKind → EKind
  | .chaser => .chaser
  | .shooter => .shooter
  | .zig => .zig

/-- The random draws one call of `spawn_enemy_edge` consumes: the side,
the `random.randint` coordinate on the free axis, the weighted kind
choice, and the initial fire cooldown drawn in `Enemy.__init__`. -/
structure EdgeRand where
  side : Side
  coord : ℤ
  kind : BaseKind
  cool : ℚ
deriving DecidableEq, Repr

/-- Source `Game.spawn_enemy_edge(kind, level)`: an enemy placed just outside a
random screen border; the kind is the weighted random draw unless forced
by the caller. -/
def spawn_enemy_edge (r : EdgeRand) (kind : Option EKind) (level : ℕ) : Enemy :=
  let xy : ℚ × ℚ :=
    match r.side with
    | .top => ((r.coord : ℚ), -40)
    | .bottom => ((r.coord : ℚ), HEIGHT + 40)
    | .left => (-40, (r.coord : ℚ))
    | .right => (WIDTH + 40, (r.coord : ℚ))
  Enemy.init xy.1 xy.2 (kind.getD r.kind.toEKind) level r.cool

/-- The wave-scheduling state owned by `Game` (`self.wave`,
`self.wave_state`, `self.interlude_time`, `self.spawn_timer`,
`self.difficulty`) together with the enemy list the scheduler appends
to. -/
structure WaveSt where
  enemies : List Enemy
  wave : ℕ
  wave_state : WaveState
  interlude_time : ℚ
  spawn_timer : ℚ
  difficulty : ℚ
deriving DecidableEq, Repr

/-- Source `Game.spawn_wave`: increments the wave counter, sets the difficulty,
spawns `min(4 + wave*2, 40)` edge enemies at level `1 + wave//3`, and on
every 5th wave appends one boss at level `3 + wave//5`.  `rand i` is the
randomness consumed by the i-th edge spawn; `bossCool` the boss's drawn
initial cooldown. -/
def spawn_wave (rand : ℕ → EdgeRand) (bossCool : ℚ) (s : WaveSt) : WaveSt :=
  let wave2 := s.wave + 1
  let n := min (4 + wave2 * 2) 40
  let newOnes := (List.range n).map (fun i => spawn_enemy_edge (rand i) none (1 + wave2 / 3))
  let bosses :=
    if wave2 % 5 = 0 then [Enemy.init (WIDTH / 2) (-120) .boss (3 + wave2 / 5) bossCool]
    else []
  { s with
    wave := wave2
    difficulty := 1 + wave2 * (12/100)
    enemies := s.enemies ++ newOnes ++ bosses }

/-- Source `Game.update_wave_and_spawning(dt)`.  In the interlude the countdown
runs; on expiry the phase flips to active and `spawn_wave` runs.  While
active, an empty enemy list flips the phase back to interlude with the
timer reset to 6.0, and an independent spawn timer occasionally
(probability 0.6, the drawn `roll`) injects one extra edge enemy at
level `1 + wave//2`.  The unused bookkeeping `self.last_interlude` is
omitted. -/
def update_wave_and_spawning (dt : ℚ) (rand : ℕ → EdgeRand) (bossCool : ℚ)
    (extraRand : EdgeRand) (roll : ℚ) (s : WaveSt) : WaveSt :=
  match s.wave_state with
  | .interlude =>
    let t2 := s.interlude_time - dt
    if t2 ≤ 0 then
      spawn_wave rand bossCool { s with interlude_time := t2, wave_state := .active }
    else { s with interlude_time := t2 }
  | .active =>
    let s1 :=
      if s.enemies.isEmpty then { s with wave_state := .interlude, interlude_time := 6 }
      else s
    let t2 := s1.spawn_timer - dt
    if t2 ≤ 0 then
      let s2 := { s1 with spawn_timer := max (3/10) ((12/10) / (1 + s1.wave * (8/100))) }
      if roll < 6/10 then
        { s2 with enemies := s2.enemies ++ [spawn_enemy_edge extraRand none (1 + s2.wave / 2)] }
      else s2
    else { s1 with spawn_timer := t2 }

/-- Source `Game.reset_run`: a fresh player with the persisted upgrades applied
to max hp and speed, and the initial wave-scheduler state (`wave = 0`,
interlude phase, `interlude_time = 4.0`, `difficulty = 1.0`).  The
write-only field `self.wave_time` is omitted. -/
def reset_run (pu : Persist) : Player × WaveSt :=
  let p0 := Player.init (WIDTH * (1/2)) (HEIGHT * (7/10))
  let p1 : Player := { p0 with maxhp := PLAYER_MAX_HP + pu.hp * 20 }
  let p2 : Player := { p1 with hp := p1.maxhp, speed := PLAYER_BASE_SPEED + pu.speed * 30 }
  (p2,
   { enemies := [], wave := 0, wave_state := .interlude, interlude_time := 4,
     spawn_timer := 0, difficulty := 1 })

/-! ## Player movement in `Game.input_play` (lines 328-340) and the
death check in `Game.run` (lines 605-609) -/

/-- The movement/dash/clamp block of `Game.input_play`.  `(mx, my)` is
the normalized movement vector computed from the pressed keys (the
normalization itself involves `math.hypot`; theorems quantify over all
rational pairs, a superset of its possible outputs).  `dashKey` is
`keys[SPACE] or keys[LSHIFT]`. -/
def input_move (mx my : ℚ) (dashKey : Bool) (dt : ℚ) (pl : Player) : Player :=
  let pl1 :=
    if dashKey = true ∧ pl.dash_cd ≤ 0 then
      { pl with
        dash_cd := PLAYER_DASH_COOLDOWN
        x := pl.x + mx * PLAYER_DASH_SPEED * (12/100)
        y := pl.y + my * PLAYER_DASH_SPEED * (12/100) }
    else pl
  let x2 := pl1.x + mx * pl1.speed * dt
  let y2 := pl1.y + my * pl1.speed * dt
  { pl1 with x := clamp x2 20 (WIDTH - 20), y := clamp y2 20 (HEIGHT - 20) }

/-- The game-over states reachable from the per-tick death check. -/
inductive GState where
  | menu
  | play
  | pause
  | shop
  | gameover
deriving DecidableEq, Repr

/-- The end-of-tick death check in `Game.run` (play branch): once
`player.hp <= 0`, the hi-score is raised to the run's score when it
exceeds it and the state machine moves to `gameover`. -/
def check_player_death (hp : ℚ) (score hiscore : ℕ) (st : GState) : GState × ℕ :=
  if hp ≤ 0 then (.gameover, if hiscore < score then score else hiscore)
  else (st, hiscore)

/-! ## Helper lemmas -/

/-- Source `clamp` lands in `[lo, hi]` whenever `lo ≤ hi`. -/
theorem clamp_mem (v lo hi : ℚ) (h : lo ≤ hi) : lo ≤ clamp v lo hi ∧ clamp v lo hi ≤ hi :=
  ⟨le_max_left _ _, max_le h (min_le_left _ _)⟩

/-- The contact test reads only the player's position and radius. -/
theorem enemyTouchesPlayer_hp (e : Enemy) (pl : Player) (h : ℚ) :
    enemyTouchesPlayer e { pl with hp := h } = enemyTouchesPlayer e pl := rfl

/-! ## C9 -/

/-- C9: after the movement/dash/clamp block of every play-state input
tick, the player's position lies within `[20, WIDTH-20] × [20, HEIGHT-20]`,
for every movement vector, dash key state, elapsed time and prior player
state — the clamp is applied after both continuous movement and the dash
impulse. -/
theorem input_move_in_bounds (mx my : ℚ) (dashKey : Bool) (dt : ℚ) (pl : Player) :
    20 ≤ (input_move mx my dashKey dt pl).x ∧
    (input_move mx my dashKey dt pl).x ≤ WIDTH - 20 ∧
    20 ≤ (input_move mx my dashKey dt pl).y ∧
    (input_move mx my dashKey dt pl).y ≤ HEIGHT - 20 := by
  have hw : (20:ℚ) ≤ WIDTH - 20 := by norm_num [WIDTH]
  have hh : (20:ℚ) ≤ HEIGHT - 20 := by norm_num [HEIGHT]
  refine ⟨(clamp_mem _ _ _ hw).1, (clamp_mem _ _ _ hw).2,
    (clamp_mem _ _ _ hh).1, (clamp_mem _ _ _ hh).2⟩

/-! ## C10 -/

/-- C10: an enemy destroyed by direct body contact with the player
grants nothing: the resulting player differs from the input player in
the `hp` field alone (score, coins, bombs, buffs all unchanged, and the
pass produces no power-up drop), while exactly the touching enemies are
removed. -/
theorem contact_destruction_grants_nothing (pl : Player) (es : List Enemy) :
    (contactPass pl es).1 = { pl with hp := (contactPass pl es).1.hp } ∧
    (contactPass pl es).2 = es.filter (fun e => !(enemyTouchesPlayer e pl)) := by
  induction es generalizing pl with
  | nil => exact ⟨rfl, rfl⟩
  | cons e es ih =>
    by_cases h : enemyTouchesPlayer e pl = true
    · by_cases hs : pl.shield ≤ 0
      · have ihx := ih { pl with hp := pl.hp - 18 }
        constructor
        · simpa [contactPass, h, hs] using ihx.1
        · simpa [contactPass, h, hs, List.filter_cons, enemyTouchesPlayer_hp] using ihx.2
      · have ihx := ih pl
        constructor
        · simpa [contactPass, h, hs] using ihx.1
        · simpa [contactPass, h, hs, List.filter_cons] using ihx.2
    · have ihx := ih pl
      constructor
      · simpa [contactPass, h] using ihx.1
      · simp [contactPass, h, List.filter_cons]
        exact ihx.2

/-! ## C3 -/

theorem deadRewardPass_survivors (l : List (Enemy × ℚ × PKind)) :
    (deadRewardPass l).survivors =
      (l.map Prod.fst).filter (fun e => !(decide (e.hp ≤ 0))) := by
  induction l with
  | nil => rfl
  | cons q l ih =>
    by_cases h : q.1.hp ≤ 0 <;>
      simp [deadRewardPass, h, List.filter_cons, ih]

theorem deadRewardPass_score (l : List (Enemy × ℚ × PKind)) :
    (deadRewardPass l).score =
      (((l.map Prod.fst).filter (fun e => decide (e.hp ≤ 0))).map rewardScore).sum := by
  induction l with
  | nil => rfl
  | cons q l ih =>
    by_cases h : q.1.hp ≤ 0 <;>
      simp [deadRewardPass, h, List.filter_cons, ih]

theorem deadRewardPass_coins (l : List (Enemy × ℚ × PKind)) :
    (deadRewardPass l).coins =
      (((l.map Prod.fst).filter (fun e => decide (e.hp ≤ 0))).map rewardCoins).sum := by
  induction l with
  | nil => rfl
  | cons q l ih =>
    by_cases h : q.1.hp ≤ 0 <;>
      simp [deadRewardPass, h, List.filter_cons, ih]

theorem deadRewardPass_drops (l : List (Enemy × ℚ × PKind)) :
    (deadRewardPass l).drops =
      (l.filter (fun q => decide (q.1.hp ≤ 0) && decide (q.2.1 < 18/100))).map
        (fun q => drop_powerup q.1.x q.1.y q.2.2) := by
  induction l with
  | nil => rfl
  | cons q l ih =>
    by_cases h : q.1.hp ≤ 0
    · by_cases hr : q.2.1 < 18/100 <;>
        simp [deadRewardPass, h, hr, List.filter_cons, ih]
    · simp [deadRewardPass, h, List.filter_cons, ih]

/-- C3: in the dead-enemy pass, every enemy with `hp ≤ 0` is removed
(survivors all have `hp > 0`, so nothing dead reaches the following
collision passes), each removed enemy contributes exactly one grant of
`10 + level*3` score and `1 + level/2` coins (the totals are the sums of
exactly one summand per dead enemy — never zero, never two), and a
power-up drops at a dead enemy's position exactly when its drop roll is
below `0.18`. -/
theorem dead_enemy_reward_spec (l : List (Enemy × ℚ × PKind)) :
    (deadRewardPass l).survivors =
      (l.map Prod.fst).filter (fun e => !(decide (e.hp ≤ 0))) ∧
    (∀ e ∈ (deadRewardPass l).survivors, 0 < e.hp) ∧
    (deadRewardPass l).score =
      (((l.map Prod.fst).filter (fun e => decide (e.hp ≤ 0))).map rewardScore).sum ∧
    (deadRewardPass l).coins =
      (((l.map Prod.fst).filter (fun e => decide (e.hp ≤ 0))).map rewardCoins).sum ∧
    (deadRewardPass l).drops =
      (l.filter (fun q => decide (q.1.hp ≤ 0) && decide (q.2.1 < 18/100))).map
        (fun q => drop_powerup q.1.x q.1.y q.2.2) := by
  refine ⟨deadRewardPass_survivors l, ?_, deadRewardPass_score l,
    deadRewardPass_coins l, deadRewardPass_drops l⟩
  intro e he
  rw [deadRewardPass_survivors l] at he
  have := (List.mem_filter.mp he).2
  simp only [Bool.not_eq_true', decide_eq_false_iff_not, not_le] at this
  exact this

/-- C3 witness: a concrete two-enemy pass — the dead chaser (hp 0) is
removed with its reward granted once, the live one survives with
positive hp. -/
theorem dead_enemy_reward_spec_witness :
    (0:ℚ) < (Enemy.mk 5 5 .zig 2 7 12 106 0 1).hp ∧
    (deadRewardPass [(Enemy.mk 0 0 .chaser 1 0 12 98 0 1, 1/10, .heal),
                     (Enemy.mk 5 5 .zig 2 7 12 106 0 1, 1/2, .coin)]).score = 13 :=
  ⟨(dead_enemy_reward_spec [(Enemy.mk 0 0 .chaser 1 0 12 98 0 1, 1/10, .heal),
      (Enemy.mk 5 5 .zig 2 7 12 106 0 1, 1/2, .coin)]).2.1
      (Enemy.mk 5 5 .zig 2 7 12 106 0 1) (by decide),
   by decide⟩

/-! ## C5 -/

/-- The key of the `sel`-th shop option. -/
def shopKey (sel : Fin 5) : ShopKey := (shopOpt sel).1

/-- The cost of the `sel`-th shop option. -/
def shopCost (sel : Fin 5) : ℕ := (shopOpt sel).2

/-- A purchase never changes the coin total inside `applyShopKey`. -/
theorem applyShopKey_coins (k : ShopKey) (pu : Persist) (pl : Player) :
    (applyShopKey k pu pl).2.coins = pl.coins := by
  cases k <;> rfl

/-- Persisted upgrade level for a purchasable stat key. -/
def Persist.level (pu : Persist) : ShopKey → ℕ
  | .hp => pu.hp
  | .speed => pu.speed
  | .damage => pu.damage
  | .bomb => 0
  | .heal => 0

/-- The current run's upgrade level (`player.upgrades[key]`). -/
def Player.upgLevel (pl : Player) : ShopKey → ℕ
  | .hp => pl.upg_hp
  | .speed => pl.upg_speed
  | .damage => pl.upg_damage
  | .bomb => 0
  | .heal => 0

/-- C5: a shop purchase is atomic.  With `coins < cost` the attempt
changes nothing at all (neither coins, nor persisted upgrade levels, nor
any player stat); with `coins ≥ cost` the cost is deducted and, for the
permanent stat options (hp, speed, damage), the upgrade level is
incremented both in the persisted record and in the current run's
player. -/
theorem shop_purchase_atomic (sel : Fin 5) (pu : Persist) (pl : Player) :
    (pl.coins < shopCost sel → shopBuy sel pu pl = (pu, pl)) ∧
    (shopCost sel ≤ pl.coins →
      (shopBuy sel pu pl).2.coins = pl.coins - shopCost sel ∧
      ((shopKey sel = .hp ∨ shopKey sel = .speed ∨ shopKey sel = .damage) →
        (shopBuy sel pu pl).1.level (shopKey sel) = pu.level (shopKey sel) + 1 ∧
        (shopBuy sel pu pl).2.upgLevel (shopKey sel) = pl.upgLevel (shopKey sel) + 1)) := by
  constructor
  · intro h
    unfold shopBuy
    rw [if_neg (Nat.not_le.mpr h : ¬ ((shopOpt sel).2 ≤ pl.coins))]
  · intro h
    have h' : (shopOpt sel).2 ≤ pl.coins := h
    constructor
    · unfold shopBuy
      rw [if_pos h', applyShopKey_coins]
      rfl
    · intro hk
      unfold shopBuy shopKey
      unfold shopKey at hk
      rw [if_pos h']
      rcases hk with hk | hk | hk <;> rw [hk] <;> exact ⟨rfl, rfl⟩

/-- C5 witness: buying the hp upgrade with 10 coins (cost 8) leaves 2
coins and bumps both upgrade records; with 3 coins (insufficient) the
attempt is a no-op. -/
theorem shop_purchase_atomic_witness :
    (shopBuy 0 ⟨0, 0, 0⟩ { Player.init 0 0 with coins := 10 }).2.coins = 2 ∧
    (shopBuy 0 ⟨0, 0, 0⟩ { Player.init 0 0 with coins := 10 }).1.level .hp = 1 ∧
    (shopBuy 0 ⟨0, 0, 0⟩ { Player.init 0 0 with coins := 10 }).2.upgLevel .hp = 1 ∧
    shopBuy 0 ⟨0, 0, 0⟩ { Player.init 0 0 with coins := 3 } =
      (⟨0, 0, 0⟩, { Player.init 0 0 with coins := 3 }) := by
  have hbuy := (shop_purchase_atomic 0 ⟨0, 0, 0⟩ { Player.init 0 0 with coins := 10 }).2
    (by decide)
  have hrej := (shop_purchase_atomic 0 ⟨0, 0, 0⟩ { Player.init 0 0 with coins := 3 }).1
    (by decide)
  exact ⟨by simpa using hbuy.1, (hbuy.2 (Or.inl rfl)).1, (hbuy.2 (Or.inl rfl)).2, hrej⟩

/-! ## C6 -/

/-- C6: the interlude countdown starts at 4 time-units on a fresh run
(before the first wave), the wave counter at 0; and whenever the phase is
active and the live enemy set is empty, the scheduler tick reverts the
phase to interlude with the timer reset to exactly 6.0 (every later
interlude therefore counts down from 6). -/
theorem interlude_timer_spec :
    (∀ pu : Persist, (reset_run pu).2.wave_state = .interlude ∧
      (reset_run pu).2.interlude_time = 4 ∧ (reset_run pu).2.wave = 0) ∧
    (∀ (dt : ℚ) (rand : ℕ → EdgeRand) (bossCool : ℚ) (extraRand : EdgeRand) (roll : ℚ)
      (s : WaveSt), s.wave_state = .active → s.enemies = [] →
      (update_wave_and_spawning dt rand bossCool extraRand roll s).wave_state = .interlude ∧
      (update_wave_and_spawning dt rand bossCool extraRand roll s).interlude_time = 6) := by
  refine ⟨fun pu => ⟨rfl, rfl, rfl⟩, ?_⟩
  intro dt rand bossCool extraRand roll s h1 h2
  obtain ⟨es, w, ws, it, st, df⟩ := s
  simp only at h1 h2
  subst h1; subst h2
  simp only [update_wave_and_spawning, List.isEmpty_nil, if_true]
  constructor <;> (dsimp only; split <;> (try split) <;> rfl)

/-- C6 witness: a concrete active state with no enemies flips to
interlude with the timer at exactly 6. -/
theorem interlude_timer_spec_witness :
    (update_wave_and_spawning 1 (fun _ => ⟨Side.top, 100, .chaser, 1⟩)
        1 ⟨Side.top, 100, .chaser, 1⟩ 0 ⟨[], 3, .active, 0, 0, 1⟩).wave_state = .interlude ∧
    (update_wave_and_spawning 1 (fun _ => ⟨Side.top, 100, .chaser, 1⟩)
        1 ⟨Side.top, 100, .chaser, 1⟩ 0 ⟨[], 3, .active, 0, 0, 1⟩).interlude_time = 6 :=
  interlude_timer_spec.2 1 (fun _ => ⟨Side.top, 100, .chaser, 1⟩)
    1 ⟨Side.top, 100, .chaser, 1⟩ 0 ⟨[], 3, .active, 0, 0, 1⟩ rfl rfl

/-! ## C4 -/

/-- The weighted kind draw never produces a boss. -/
theorem BaseKind.toEKind_ne_boss (b : BaseKind) : b.toEKind ≠ .boss := by
  cases b <;> simp [BaseKind.toEKind]

/-- An un-forced edge spawn has the drawn kind and the given level. -/
theorem spawn_enemy_edge_fields (r : EdgeRand) (lvl : ℕ) :
    (spawn_enemy_edge r none lvl).kind = r.kind.toEKind ∧
    (spawn_enemy_edge r none lvl).level = lvl := ⟨rfl, rfl⟩

/-- C4: generating the wave with counter `N = wave+1` sets the
difficulty to `1 + N*0.12`, appends exactly `min(4+2N, 40)` base
(non-boss) enemies each at level `1 + N/3`, and appends exactly one
additional boss at level `3 + N/5` iff `N` is a multiple of 5. -/
theorem wave_generation_spec (rand : ℕ → EdgeRand) (bossCool : ℚ) (s : WaveSt) :
    (spawn_wave rand bossCool s).wave = s.wave + 1 ∧
    (spawn_wave rand bossCool s).difficulty = 1 + (((s.wave + 1 : ℕ) : ℚ)) * (12/100) ∧
    ∃ base bosses,
      (spawn_wave rand bossCool s).enemies = s.enemies ++ base ++ bosses ∧
      base.length = min (4 + 2 * (s.wave + 1)) 40 ∧
      (∀ e ∈ base, e.kind ≠ .boss ∧ e.level = 1 + (s.wave + 1) / 3) ∧
      ((s.wave + 1) % 5 = 0 → bosses.length = 1 ∧
        ∀ e ∈ bosses, e.kind = .boss ∧ e.level = 3 + (s.wave + 1) / 5) ∧
      ((s.wave + 1) % 5 ≠ 0 → bosses = []) := by
  refine ⟨rfl, rfl,
    (List.range (min (4 + (s.wave + 1) * 2) 40)).map
      (fun i => spawn_enemy_edge (rand i) none (1 + (s.wave + 1) / 3)),
    if (s.wave + 1) % 5 = 0 then
      [Enemy.init (WIDTH / 2) (-120) .boss (3 + (s.wave + 1) / 5) bossCool]
    else [], rfl, ?_, ?_, ?_, ?_⟩
  · simp [Nat.mul_comm]
  · intro e he
    obtain ⟨i, _, hi⟩ := List.mem_map.mp he
    exact hi ▸ ⟨(spawn_enemy_edge_fields (rand i) _).1 ▸ BaseKind.toEKind_ne_boss _,
      (spawn_enemy_edge_fields (rand i) _).2⟩
  · intro h
    rw [if_pos h]
    refine ⟨rfl, ?_⟩
    intro e he
    rw [List.mem_singleton] at he
    subst he
    exact ⟨rfl, rfl⟩
  · intro h
    rw [if_neg h]

/-- C4 witness: at wave counter 5 (a boss wave) from an empty field, the
generated wave holds `min(4+2*5,40) = 14` base enemies plus one boss. -/
theorem wave_generation_spec_witness :
    (spawn_wave (fun _ => ⟨Side.top, 100, .chaser, 1⟩) 1
      ⟨[], 4, .active, 0, 0, 1⟩).enemies.length = 15 := by
  obtain ⟨-, -, base, bosses, henem, hlen, -, hboss, -⟩ :=
    wave_generation_spec (fun _ => ⟨Side.top, 100, .chaser, 1⟩) 1 ⟨[], 4, .active, 0, 0, 1⟩
  have h1 := (hboss (by decide)).1
  simp [henem, hlen, h1]

/-! ## C7 -/

/-- The blast test reads only the player's position. -/
theorem inBlast_score (pl : Player) (s : ℕ) (e : Enemy) :
    inBlast { pl with score := s } e = inBlast pl e := rfl

/-- The blast test ignores the bomb count. -/
theorem inBlast_bombs (pl : Player) (b : ℕ) (e : Enemy) :
    inBlast { pl with bombs := b } e = inBlast pl e := rfl

/-- Characterization of the `bomb_explode` kill loop. -/
theorem bombKillLoop_spec (pl : Player) (es : List Enemy) :
    bombKillLoop pl es =
      ({ pl with score := pl.score + 15 * (es.filter (fun e => inBlast pl e)).length },
       es.filter (fun e => !(inBlast pl e)),
       (es.filter (fun e => inBlast pl e)).length) := by
  induction es generalizing pl with
  | nil => simp [bombKillLoop]
  | cons e es ih =>
    by_cases h : inBlast pl e = true
    · simp only [bombKillLoop, h, if_true, ih, List.filter_cons, inBlast_score,
        Bool.not_true, List.length_cons, Prod.mk.injEq, Player.mk.injEq,
        and_true, true_and]
      refine ⟨by omega, by simp⟩
    · simp [bombKillLoop, h, List.filter_cons, ih]

/-- Characterization of `Game.bomb_explode`. -/
theorem bomb_explode_spec (pl : Player) (es : List Enemy) :
    (bomb_explode pl es).2 = es.filter (fun e => !(inBlast pl e)) ∧
    (bomb_explode pl es).1.score =
      pl.score + 15 * (es.filter (fun e => inBlast pl e)).length ∧
    (bomb_explode pl es).1.coins =
      pl.coins + 2 * (es.filter (fun e => inBlast pl e)).length ∧
    (bomb_explode pl es).1.bombs = pl.bombs := by
  unfold bomb_explode
  rw [bombKillLoop_spec]
  dsimp only
  by_cases hk : 0 < (es.filter (fun e => inBlast pl e)).length
  · rw [if_pos hk]
    refine ⟨rfl, rfl, ?_, rfl⟩
    dsimp only
    omega
  · rw [if_neg hk]
    refine ⟨rfl, rfl, ?_, rfl⟩
    dsimp only
    omega

/-- C7: the bomb fires only when the key is held, at least one charge
remains and more than half a second of wall-clock time has elapsed since
the previous use (otherwise the state is completely unchanged); a firing
consumes exactly one charge, removes exactly the enemies within 180
units of the player, and grants 15 score and 2 coins per removed
enemy. -/
theorem bomb_action_spec (bombKey : Bool) (now lastBomb : ℚ) (pl : Player) (es : List Enemy) :
    (¬(bombKey = true ∧ 0 < pl.bombs ∧ 1/2 < now - lastBomb) →
      bombAction bombKey now lastBomb pl es = (pl, es, lastBomb)) ∧
    ((bombKey = true ∧ 0 < pl.bombs ∧ 1/2 < now - lastBomb) →
      (bombAction bombKey now lastBomb pl es).2.1 =
        es.filter (fun e => !(inBlast pl e)) ∧
      (bombAction bombKey now lastBomb pl es).1.bombs = pl.bombs - 1 ∧
      (bombAction bombKey now lastBomb pl es).1.score =
        pl.score + 15 * (es.filter (fun e => inBlast pl e)).length ∧
      (bombAction bombKey now lastBomb pl es).1.coins =
        pl.coins + 2 * (es.filter (fun e => inBlast pl e)).length ∧
      (bombAction bombKey now lastBomb pl es).2.2 = now) := by
  constructor
  · intro h
    unfold bombAction
    rw [if_neg h]
  · intro h
    unfold bombAction
    rw [if_pos h]
    have hb := bomb_explode_spec { pl with bombs := pl.bombs - 1 } es
    simp only [inBlast_bombs] at hb
    exact ⟨hb.1, by rw [hb.2.2.2], hb.2.1, hb.2.2.1, rfl⟩

/-- C7 witness: a concrete bomb use with two enemies, one inside the
180-unit radius and one outside; one charge is consumed, only the near
enemy dies, and it is worth 15 score and 2 coins. -/
theorem bomb_action_spec_witness :
    (bombAction true 1 0 (Player.init 0 0)
      [Enemy.init 0 100 .chaser 1 1, Enemy.init 0 300 .chaser 1 1]).1.bombs = 1 ∧
    (bombAction true 1 0 (Player.init 0 0)
      [Enemy.init 0 100 .chaser 1 1, Enemy.init 0 300 .chaser 1 1]).2.1 =
      [Enemy.init 0 300 .chaser 1 1] ∧
    (bombAction true 1 0 (Player.init 0 0)
      [Enemy.init 0 100 .chaser 1 1, Enemy.init 0 300 .chaser 1 1]).1.score = 15 ∧
    (bombAction true 1 0 (Player.init 0 0)
      [Enemy.init 0 100 .chaser 1 1, Enemy.init 0 300 .chaser 1 1]).1.coins = 2 := by
  obtain ⟨h1, h2, h3, h4, h5⟩ := (bomb_action_spec true 1 0 (Player.init 0 0)
    [Enemy.init 0 100 .chaser 1 1, Enemy.init 0 300 .chaser 1 1]).2
    ⟨rfl, by decide, by norm_num⟩
  refine ⟨by rw [h2]; rfl, ?_, ?_, ?_⟩
  · rw [h1]
    norm_num [inBlast, Enemy.init, Player.init, List.filter_cons]
  · rw [h3]
    norm_num [inBlast, Enemy.init, Player.init, List.filter_cons]
  · rw [h4]
    norm_num [inBlast, Enemy.init, Player.init, List.filter_cons]

/-! ## C8 -/

/-- C8 counterexample: the bomb power-up does not merely cap the count
at 6 — it can lower it.  Buying an extra bomb in the shop at 6 bombs
(cost 6, paid with 6 coins) yields 7 bombs, and a subsequent bomb
power-up pickup DROPS the count from 7 to 6, contradicting "never
decreasing it". -/
theorem powerup_bomb_never_decreasing_cex :
    (shopBuy 3 ⟨0, 0, 0⟩ { Player.init 0 0 with bombs := 6, coins := 6 }).2.bombs = 7 ∧
    (pickupEffect .bomb
      (shopBuy 3 ⟨0, 0, 0⟩ { Player.init 0 0 with bombs := 6, coins := 6 }).2).bombs = 6 := by
  decide

/-- C8 (amended): heal restores 40 hp capped at maxhp; rapid and shield
set their buff timers to exactly 6, overwriting any remaining duration;
a bomb pickup sets the count to `min(count+1, 6)` — incrementing it
whenever the count is at most 5 and capping (possibly decreasing) it at
6 otherwise; coin grants a flat 5 coins; and a power-up that falls past
the bottom boundary without being picked up is discarded with no effect
on the player. -/
theorem powerup_effects_spec (pl : Player) (dt : ℚ) (p : PowerUp) :
    (0 ≤ pl.maxhp → (pickupEffect .heal pl).hp ≤ pl.maxhp) ∧
    (0 ≤ pl.hp → pl.hp ≤ pl.maxhp →
      (pickupEffect .heal pl).hp = min pl.maxhp (pl.hp + 40)) ∧
    (pickupEffect .rapid pl).rapid = 6 ∧
    (pickupEffect .shield pl).shield = 6 ∧
    (pickupEffect .bomb pl).bombs = min (pl.bombs + 1) 6 ∧
    (pl.bombs ≤ 5 → (pickupEffect .bomb pl).bombs = pl.bombs + 1) ∧
    (pickupEffect .coin pl).coins = pl.coins + 5 ∧
    (¬((p.x - pl.x)^2 + (p.y + 40 * dt - pl.y)^2 ≤ (pl.r + 12)^2) →
      HEIGHT + 40 < p.y + 40 * dt →
      powerupStepOne dt pl p = (pl, none)) := by
  refine ⟨?_, ?_, rfl, rfl, ?_, ?_, rfl, ?_⟩
  · intro h
    exact max_le h (min_le_left _ _)
  · intro h1 h2
    have hm : 0 ≤ min pl.maxhp (pl.hp + 40) := le_min (le_trans h1 h2) (by linarith)
    exact max_eq_right hm
  · show clampNat (pl.bombs + 1) 0 6 = min (pl.bombs + 1) 6
    unfold clampNat
    omega
  · intro h
    show clampNat (pl.bombs + 1) 0 6 = pl.bombs + 1
    unfold clampNat
    omega
  · intro h1 h2
    unfold powerupStepOne
    dsimp only
    rw [if_neg h1, if_pos h2]

/-- C8 witness: concrete pickups — heal at 50/120 hp lands at 90, bomb
at 2 charges lands at 3, and a power-up passing the bottom edge far from
the player is discarded leaving the player untouched. -/
theorem powerup_effects_spec_witness :
    (pickupEffect .heal { Player.init 100 100 with hp := 50 }).hp = 90 ∧
    (pickupEffect .bomb { Player.init 100 100 with hp := 50 }).bombs = 3 ∧
    powerupStepOne 1 { Player.init 100 100 with hp := 50 } ⟨500, 700, .coin, 0⟩ =
      ({ Player.init 100 100 with hp := 50 }, none) := by
  have h := powerup_effects_spec { Player.init 100 100 with hp := 50 } 1 ⟨500, 700, .coin, 0⟩
  refine ⟨?_, ?_, ?_⟩
  · rw [h.2.1 (by norm_num [Player.init]) (by norm_num [Player.init, PLAYER_MAX_HP])]
    norm_num [Player.init, PLAYER_MAX_HP, min_def]
  · rw [h.2.2.2.2.1]
    decide
  · exact h.2.2.2.2.2.2.2 (by norm_num [Player.init]) (by norm_num [HEIGHT])

/-! ## C1 -/

/-- The enemy-bullet hit test reads only the player's position and radius. -/
theorem bulletHitsPlayer_hp (b : Bullet) (pl : Player) (h : ℚ) :
    bulletHitsPlayer b { pl with hp := h } = bulletHitsPlayer b pl := rfl

/-- The contact pass never raises the player's hp. -/
theorem contactPass_hp_le (pl : Player) (es : List Enemy) :
    (contactPass pl es).1.hp ≤ pl.hp := by
  induction es generalizing pl with
  | nil => exact le_refl _
  | cons e es ih =>
    by_cases h : enemyTouchesPlayer e pl = true
    · by_cases hs : pl.shield ≤ 0
      · have step : (contactPass pl (e :: es)).1.hp =
            (contactPass { pl with hp := pl.hp - 18 } es).1.hp := by
          simp [contactPass, h, hs]
        rw [step]
        calc (contactPass { pl with hp := pl.hp - 18 } es).1.hp
            ≤ pl.hp - 18 := ih _
          _ ≤ pl.hp := by linarith
      · simpa [contactPass, h, hs] using ih pl
    · simpa [contactPass, h] using ih pl

/-- The bullet pass never raises the player's hp, as long as every
bullet carries nonnegative damage (every bullet the game constructs
does). -/
theorem bulletPass_hp_le (pl : Player) (es : List Enemy) (bs : List Bullet)
    (hdmg : ∀ b ∈ bs, 0 ≤ b.dmg) :
    (bulletPass pl es bs).player.hp ≤ pl.hp := by
  induction bs generalizing pl es with
  | nil => exact le_refl _
  | cons b bs ih =>
    have hb := hdmg b (List.mem_cons_self b bs)
    have hrest : ∀ x ∈ bs, 0 ≤ x.dmg := fun x hx => hdmg x (List.mem_cons_of_mem b hx)
    cases ho : b.owner with
    | player =>
      by_cases h2 : (damageFirstHit b es).2 = true <;>
        simpa [bulletPass, ho, h2] using ih pl (damageFirstHit b es).1 hrest
    | enemy =>
      by_cases h2 : bulletHitsPlayer b pl = true
      · by_cases hs : pl.shield ≤ 0
        · have step : (bulletPass pl es (b :: bs)).player.hp =
              (bulletPass { pl with hp := pl.hp - b.dmg } es bs).player.hp := by
            simp [bulletPass, ho, h2, hs]
          rw [step]
          calc (bulletPass { pl with hp := pl.hp - b.dmg } es bs).player.hp
              ≤ pl.hp - b.dmg := ih _ es hrest
            _ ≤ pl.hp := by linarith
        · simpa [bulletPass, ho, h2, hs] using ih pl es hrest
      · simpa [bulletPass, ho, h2] using ih pl es hrest

/-- C1 counterexample: the claim that hp stays within `[0, maxhp]` is
false — a single enemy contact at 10 hp drives the player to -8 hp; no
pass floors hp at 0. -/
theorem player_hp_floor_cex :
    (contactPass { Player.init 500 325 with hp := 10 }
      [Enemy.init 500 325 .chaser 1 1]).1.hp < 0 := by
  have ht : enemyTouchesPlayer (Enemy.init 500 325 .chaser 1 1)
      { Player.init 500 325 with hp := 10 } = true := by
    unfold enemyTouchesPlayer Enemy.init Player.init
    norm_num
    positivity
  have hs : ({ Player.init 500 325 with hp := 10 } : Player).shield ≤ 0 := by
    norm_num [Player.init]
  simp only [contactPass, ht, if_true, hs, if_pos]
  norm_num [Player.init]

/-- C1 (amended): no operation raises the player's hp above maxhp —
damage passes only lower hp (given bullets with nonnegative damage),
and every healing operation (power-up pickup, shop heal, shop hp
upgrade) caps at maxhp — but hp is not floored at 0; and whenever
hp ≤ 0 at the end-of-tick check during play, the state machine
transitions to gameover, raising the hi-score to the run's score when it
exceeds it. -/
theorem hp_cap_and_gameover_spec :
    (∀ pl es, (contactPass pl es).1.hp ≤ pl.hp) ∧
    (∀ pl es bs, (∀ b ∈ bs, 0 ≤ b.dmg) → (bulletPass pl es bs).player.hp ≤ pl.hp) ∧
    (∀ (k : PKind) (pl : Player), pl.hp ≤ pl.maxhp → 0 ≤ pl.maxhp →
      (pickupEffect k pl).hp ≤ pl.maxhp) ∧
    (∀ (sel : Fin 5) (pu : Persist) (pl : Player), pl.hp ≤ pl.maxhp →
      (shopBuy sel pu pl).2.hp ≤ (shopBuy sel pu pl).2.maxhp) ∧
    (∀ (hp : ℚ) (score hiscore : ℕ) (st : GState), hp ≤ 0 →
      check_player_death hp score hiscore st =
        (.gameover, if hiscore < score then score else hiscore)) := by
  refine ⟨contactPass_hp_le, fun pl es bs h => bulletPass_hp_le pl es bs h, ?_, ?_, ?_⟩
  · intro k pl h1 h2
    cases k with
    | heal => exact max_le h2 (min_le_left _ _)
    | rapid => exact h1
    | shield => exact h1
    | bomb => exact h1
    | coin => exact h1
  · intro sel pu pl h1
    unfold shopBuy
    by_cases hc : (shopOpt sel).2 ≤ pl.coins
    · rw [if_pos hc]
      cases hk : (shopOpt sel).1 with
      | hp => exact le_refl _
      | speed => exact h1
      | damage => exact h1
      | bomb => exact h1
      | heal => exact min_le_left _ _
    · rw [if_neg hc]
      exact h1
  · intro hp score hiscore st h
    unfold check_player_death
    rw [if_pos h]

/-- C1 witness: concrete instances — a shielded-less contact only lowers
hp, a heal pickup at full health stays at maxhp, and a dead player at
score 100 against hi-score 50 moves to gameover with hi-score 100. -/
theorem hp_cap_and_gameover_spec_witness :
    (contactPass (Player.init 500 325) [Enemy.init 500 325 .chaser 1 1]).1.hp ≤
      (Player.init 500 325).hp ∧
    (pickupEffect .heal (Player.init 500 325)).hp ≤ (Player.init 500 325).maxhp ∧
    check_player_death 0 100 50 .play = (.gameover, 100) := by
  refine ⟨hp_cap_and_gameover_spec.1 (Player.init 500 325) [Enemy.init 500 325 .chaser 1 1],
    hp_cap_and_gameover_spec.2.2.1 .heal (Player.init 500 325)
      (by norm_num [Player.init, PLAYER_MAX_HP]) (by norm_num [Player.init, PLAYER_MAX_HP]),
    ?_⟩
  rw [hp_cap_and_gameover_spec.2.2.2.2 0 100 50 .play (le_refl 0)]
  norm_num

/-! ## C2 -/

/-- Square-free characterization of `n / (√L + ε) ≤ c` for nonnegative
`n`, `L` and positive `ε`. -/
theorem div_sqrt_add_le_iff (n c eps L : ℝ) (hn : 0 ≤ n) (hL : 0 ≤ L) (heps : 0 < eps) :
    n / (Real.sqrt L + eps) ≤ c ↔
      (0 ≤ c ∧ (n ≤ c * eps ∨ (n - c * eps)^2 ≤ c^2 * L)) := by
  have hs : 0 ≤ Real.sqrt L := Real.sqrt_nonneg L
  have hden : 0 < Real.sqrt L + eps := by linarith
  have hsq : Real.sqrt L ^ 2 = L := Real.sq_sqrt hL
  rw [div_le_iff₀ hden, mul_add]
  constructor
  · intro h
    have hc : 0 ≤ c := by
      by_contra hcn
      push_neg at hcn
      nlinarith
    refine ⟨hc, ?_⟩
    by_cases hcase : n ≤ c * eps
    · exact Or.inl hcase
    · right
      push_neg at hcase
      have h1 : n - c * eps ≤ c * Real.sqrt L := by linarith
      have key : 0 ≤ (c * Real.sqrt L - (n - c * eps)) * (c * Real.sqrt L + (n - c * eps)) := by
        apply mul_nonneg
        · linarith
        · nlinarith [mul_nonneg hc hs]
      nlinarith [key, hsq]
  · rintro ⟨hc, h | h⟩
    · nlinarith [mul_nonneg hc hs]
    · by_contra hlt
      push_neg at hlt
      have h4 : 0 ≤ c * Real.sqrt L := mul_nonneg hc hs
      have h5 : c * Real.sqrt L < n - c * eps := by linarith
      have h6 : (c * Real.sqrt L)^2 < (n - c * eps)^2 :=
        pow_lt_pow_left₀ h5 h4 two_ne_zero
      have h7 : (c * Real.sqrt L)^2 = c^2 * L := by rw [mul_pow, hsq]
      linarith

/-- The executable hit test agrees with the source's real-valued
distance comparison `num / (hypot + 1e-6) <= e.r + 4`. -/
theorem laserHitB_correct (l : LaserBeam) (px py er : ℚ) :
    laserHitB l px py er = true ↔ lineDistR l px py ≤ (er : ℝ) + 4 := by
  have hn : (0:ℚ) ≤ lineNum l px py := by
    unfold lineNum
    exact abs_nonneg _
  have hL : (0:ℚ) ≤ lineLenSq l := by
    unfold lineLenSq
    positivity
  simp only [laserHitB, lineDistR, decide_eq_true_eq]
  rw [div_sqrt_add_le_iff _ _ _ _ (by exact_mod_cast hn) (by exact_mod_cast hL) (by norm_num)]
  norm_cast

/-- Pointwise characterization of the nested laser loop: each enemy ends
the pass with its hp lowered by `dmg*dt*8` for every laser whose line
test hits it; all other fields are untouched. -/
theorem laserDamagePass_eq (dt : ℚ) (ls : List LaserBeam) (es : List Enemy) :
    laserDamagePass dt ls es = es.map (fun e =>
      { e with hp := e.hp -
          ((ls.filter (fun l => laserHitB l e.x e.y e.r)).map
            (fun l => l.dmg * dt * 8)).sum }) := by
  induction ls generalizing es with
  | nil =>
    simp only [laserDamagePass, List.foldl_nil, List.filter_nil, List.map_nil,
      List.sum_nil, sub_zero]
    exact (List.map_id'' (fun e => rfl) es).symm
  | cons l ls ih =>
    have step : laserDamagePass dt (l :: ls) es =
        laserDamagePass dt ls (es.map (laserHitOne dt l)) := rfl
    rw [step, ih, List.map_map]
    refine List.map_congr_left ?_
    intro e _
    by_cases h : laserHitB l e.x e.y e.r = true <;>
      simp [laserHitOne, h, List.filter_cons, sub_sub]

/-- C2 (amended): while alive, each tick a laser damages exactly those
enemies passing the source's point-to-INFINITE-LINE distance test
(distance from the enemy's center to the line through the beam's origin
along its direction, computed as `num/(hypot+1e-6)`, at most `r + 4`),
reducing each one's hp by `dmg × dt × 8`; the test uses the full line,
not a ray, so enemies strictly behind the origin can also take damage. -/
theorem laser_damage_line_spec (dt : ℚ) (ls : List LaserBeam) (es : List Enemy) :
    laserDamagePass dt ls es = es.map (fun e =>
      { e with hp := e.hp -
          ((ls.filter (fun l => laserHitB l e.x e.y e.r)).map
            (fun l => l.dmg * dt * 8)).sum }) ∧
    (∀ (l : LaserBeam) (px py er : ℚ),
      laserHitB l px py er = true ↔ lineDistR l px py ≤ (er : ℝ) + 4) :=
  ⟨laserDamagePass_eq dt ls es, fun l px py er => laserHitB_correct l px py er⟩

/-- C2 witness: the real-valued line distance from the enemy center
`(500, 425)` to the beam from `(500, 325)` pointing up is within
`12 + 4`, obtained by applying the spec's hit-test equivalence at that
concrete input. -/
theorem laser_damage_line_spec_witness :
    lineDistR ⟨500, 325, 0, -1, 1/4, 0, 6⟩ 500 425 ≤ ((12:ℚ) : ℝ) + 4 := by
  refine ((laser_damage_line_spec 1 [] []).2 ⟨500, 325, 0, -1, 1/4, 0, 6⟩ 500 425 12).mp ?_
  simp only [laserHitB, lineNum, lineLenSq, decide_eq_true_eq]
  norm_num

/-- An enemy spawns at the requested x coordinate. -/
theorem Enemy_init_x (x y : ℚ) (k : EKind) (lvl : ℕ) (c : ℚ) :
    (Enemy.init x y k lvl c).x = x := rfl

/-- An enemy spawns at the requested y coordinate. -/
theorem Enemy_init_y (x y : ℚ) (k : EKind) (lvl : ℕ) (c : ℚ) :
    (Enemy.init x y k lvl c).y = y := rfl

/-- A chaser has radius 12. -/
theorem Enemy_init_chaser_r (x y : ℚ) (lvl : ℕ) (c : ℚ) :
    (Enemy.init x y .chaser lvl c).r = 12 := rfl

/-- A chaser starts at `20 + level*6` hp. -/
theorem Enemy_init_chaser_hp (x y : ℚ) (lvl : ℕ) (c : ℚ) :
    (Enemy.init x y .chaser lvl c).hp = 20 + (lvl : ℚ) * 6 := rfl

/-- C2 counterexample: the claim's RAY hit volume is wrong.  The beam at
`(500, 325)` pointing up (direction `(0,-1)`) is alive, the enemy at
`(500, 425)` sits strictly behind the origin at squared ray-distance
`10000 > 16²`, yet the pass damages it by `dmg*dt*8` — the source tests
against the infinite line, not the ray. -/
theorem laser_ray_claim_cex :
    LaserBeam.aliveB ⟨500, 325, 0, -1, 1/4, 0, 6⟩ = true ∧
    (16:ℚ)^2 < raySqDist 500 325 0 (-1) 500 425 ∧
    ((Enemy.init 500 425 .chaser 1 1).r + 4)^2 = (16:ℚ)^2 ∧
    laserDamagePass (1/60) [⟨500, 325, 0, -1, 1/4, 0, 6⟩] [Enemy.init 500 425 .chaser 1 1] =
      [{ Enemy.init 500 425 .chaser 1 1 with
          hp := (Enemy.init 500 425 .chaser 1 1).hp - 6 * (1/60) * 8 }] ∧
    (Enemy.init 500 425 .chaser 1 1).hp - 6 * (1/60) * 8 <
      (Enemy.init 500 425 .chaser 1 1).hp := by
  have hhit : laserHitB ⟨500, 325, 0, -1, 1/4, 0, 6⟩ (Enemy.init 500 425 .chaser 1 1).x
      (Enemy.init 500 425 .chaser 1 1).y (Enemy.init 500 425 .chaser 1 1).r = true := by
    simp only [laserHitB, lineNum, lineLenSq, Enemy_init_x, Enemy_init_y,
      Enemy_init_chaser_r, decide_eq_true_eq]
    norm_num
  refine ⟨?_, ?_, ?_, ?_, ?_⟩
  · simp only [LaserBeam.aliveB, decide_eq_true_eq]
    norm_num
  · norm_num [raySqDist]
  · rw [Enemy_init_chaser_r]
    norm_num
  · have hstep : laserDamagePass (1/60) [⟨500, 325, 0, -1, 1/4, 0, 6⟩]
        [Enemy.init 500 425 .chaser 1 1] =
        [laserHitOne (1/60) ⟨500, 325, 0, -1, 1/4, 0, 6⟩ (Enemy.init 500 425 .chaser 1 1)] := rfl
    rw [hstep]
    unfold laserHitOne
    rw [if_pos hhit]
  · rw [Enemy_init_chaser_hp]
    norm_num

end MiniGames
